import Mathlib

/-
Verification of the Docify retrieval-augmented document chatbot:
a shallow embedding of `src/chatbot_service.py`, `src/document_processor.py`
and the temp-file handling of `src/app.py`, together with theorems settling
the specification claims about summarization, question answering, extraction
dispatch and temp-file cleanup.

The inference backend (the Groq client) is external: it is modelled as an
oracle mapping the index of the request (how many requests were already
issued during the current operation) and the request itself to either a
completion text (`Except.ok`) or a raised exception message (`Except.error`).
All embedded operations return, besides their result, the ordered list of
requests they issued, so that claims about the number and shape of model
calls are expressible.
-/

namespace Docify

/-- one element of a structured (vision) message content list: either a text
segment or an image reference given by a data URL, mirroring the dictionaries
built in `chatbot_service.py`. -/
inductive ContentPart where
  | text (s : String)
  | image_url (url : String)
deriving DecidableEq

/-- content of a chat message: plain-string content (text-only requests) or a
structured list of parts (vision requests). -/
inductive MsgContent where
  | str (s : String)
  | parts (l : List ContentPart)
deriving DecidableEq

/-- a chat message `{role, content}` as passed to the completion API. -/
structure Message where
  role : String
  content : MsgContent
deriving DecidableEq

/-- one request to `client.chat.completions.create`, keeping the fields the
source sets that the claims talk about (model id, messages, token limit,
streaming flag). -/
structure Call where
  model : String
  messages : List Message
  max_completion_tokens : Nat
  stream : Bool
deriving DecidableEq

/-- the inference backend: given how many requests the current operation has
already issued and the request, answer with the completion content or with a
raised exception message. -/
abbrev Oracle := Nat → Call → Except String String

/-- a langchain `Document`, keeping the fields the source reads:
`page_content`, and the metadata keys `source` and `type`
(`mtype d = some "image"` models `metadata.get("type") == "image"`). -/
structure Document where
  page_content : String
  source : String := ""
  mtype : Option String := none
deriving DecidableEq

/-- whether a chunk is an image unit: `chunk.metadata.get("type") == "image"`. -/
def isImageDoc (d : Document) : Bool := d.mtype == some "image"

/-- whether the character list `pat` occurs as a contiguous sublist of `s`;
models the Python substring test `pat in s`. -/
def containsSub (s pat : List Char) : Bool :=
  match s with
  | [] => pat.isPrefixOf ([] : List Char)
  | _ :: rest => pat.isPrefixOf s || containsSub rest pat

/-- models the Python substring test `pat in s` on strings. -/
def py_in (pat s : String) : Bool := containsSub s.data pat.data

/-- the prefix of `s` strictly before the first occurrence of `sep`
(all of `s` when `sep` does not occur); models `s.split(sep)[0]`. -/
def takeUntilSub (sep : List Char) : List Char → List Char
  | [] => []
  | c :: rest => if sep.isPrefixOf (c :: rest) then [] else c :: takeUntilSub sep rest

/-- the suffix of `s` strictly after the first occurrence of `sep`
(`[]` when `sep` does not occur). -/
def dropThroughSub (sep : List Char) : List Char → List Char
  | [] => []
  | c :: rest =>
    if sep.isPrefixOf (c :: rest) then (c :: rest).drop sep.length
    else dropThroughSub sep rest

/-- models `content.split("[IMAGE_DATA]")[1].split("[/IMAGE_DATA]")[0]`:
the text after the first `[IMAGE_DATA]` marker, cut at the next
`[IMAGE_DATA]` (Python split segment boundary) and then at the first
`[/IMAGE_DATA]`. The source only evaluates this when both markers occur. -/
def image_data_of (content : String) : String :=
  String.mk (takeUntilSub "[/IMAGE_DATA]".data
    (takeUntilSub "[IMAGE_DATA]".data
      (dropThroughSub "[IMAGE_DATA]".data content.data)))

/-- `self.model` in `ChatbotService.__init__`. -/
def model : String := "moonshotai/kimi-k2-instruct"

/-- `self.vision_model` in `ChatbotService.__init__`. -/
def vision_model : String := "meta-llama/llama-4-scout-17b-16e-instruct"

/-- `"\n".join(chunk.page_content for chunk in chunks)` as computed at the
top of `summarize_document`. -/
def fullText (chunks : List Document) : String :=
  String.intercalate "\n" (chunks.map (·.page_content))

/-- the prompt built by `_summarize_short_document`. -/
def short_prompt (full_text : String) : String :=
  "Please provide a comprehensive summary of the following document:\n\n" ++
    full_text ++ "\n\nSummary:"

/-- the single request issued by `_summarize_short_document`. -/
def shortCall (full_text : String) : Call :=
  { model := model
    messages := [⟨"user", .str (short_prompt full_text)⟩]
    max_completion_tokens := 1024
    stream := false }

/-- `_summarize_short_document`: one non-streaming request over the full
text, whose output (or raised exception) is returned unchanged. -/
def _summarize_short_document (o : Oracle) (full_text : String) :
    Except String String × List Call :=
  (o 0 (shortCall full_text), [shortCall full_text])

/-- `chunk_size = 5` in `_summarize_long_document`. -/
def chunk_size : Nat := 5

/-- starting indices `i` of the Python loop `for i in range(0, n, chunk_size)`,
produced from the number of groups still to emit and the next start. -/
def groupStartsAux : Nat → Nat → List Nat
  | 0, _ => []
  | g + 1, i => i :: groupStartsAux g (i + chunk_size)

/-- the list `range(0, n, chunk_size)`: `⌈n / chunk_size⌉` indices
`0, chunk_size, 2 * chunk_size, ...`. -/
def groupStarts (n : Nat) : List Nat :=
  groupStartsAux ((n + chunk_size - 1) / chunk_size) 0

/-- the text of the chunk group starting at index `i`:
`"\n".join(chunks[i:i+chunk_size])`, truncated at 6000 characters with a
`"..."` marker appended. -/
def groupText (chunks : List Document) (i : Nat) : String :=
  let raw := String.intercalate "\n" (((chunks.drop i).take chunk_size).map (·.page_content))
  if raw.length > 6000 then raw.take 6000 ++ "..." else raw

/-- the per-group prompt built in the loop of `_summarize_long_document`. -/
def group_prompt (group_text : String) : String :=
  "Please provide a concise summary of this section of the document:\n\n" ++
    group_text ++
    "\n\nFocus on key concepts, main topics, and important details. Summary:"

/-- the per-group request issued in the loop of `_summarize_long_document`. -/
def groupCall (chunks : List Document) (i : Nat) : Call :=
  { model := model
    messages := [⟨"user", .str (group_prompt (groupText chunks i))⟩]
    max_completion_tokens := 512
    stream := false }

/-- the string appended to `chunk_summaries` for the group starting at `i`:
`f"Section {i//chunk_size + 1}: {content}"` on success, and
`f"Section {i//chunk_size + 1}: [Error summarizing this section: {e}]"` when
the group request raised (the `except` branch). -/
def sectionSummary (i : Nat) (r : Except String String) : String :=
  match r with
  | .ok content => "Section " ++ toString (i / chunk_size + 1) ++ ": " ++ content
  | .error e =>
      "Section " ++ toString (i / chunk_size + 1) ++ ": " ++
        ("[Error summarizing this section: " ++ e ++ "]")

/-- the group loop of `_summarize_long_document`: for each start index issue
one request (the `k`-th request of the operation) and record the labelled
summary or labelled error placeholder; returns the `chunk_summaries` list and
the requests issued. -/
def groupLoop (o : Oracle) (chunks : List Document) :
    List Nat → Nat → List String × List Call
  | [], _ => ([], [])
  | i :: rest, k =>
    let r := groupLoop o chunks rest (k + 1)
    (sectionSummary i (o k (groupCall chunks i)) :: r.1, groupCall chunks i :: r.2)

/-- the `chunk_summaries` list computed by `_summarize_long_document`. -/
def longDocSummaries (o : Oracle) (chunks : List Document) : List String :=
  (groupLoop o chunks (groupStarts chunks.length) 0).1

/-- the group requests issued by `_summarize_long_document`, in order. -/
def longDocCalls (o : Oracle) (chunks : List Document) : List Call :=
  (groupLoop o chunks (groupStarts chunks.length) 0).2

/-- `all_summaries = "\n\n".join(chunk_summaries)`. -/
def allSummaries (o : Oracle) (chunks : List Document) : String :=
  String.intercalate "\n\n" (longDocSummaries o chunks)

/-- the final reduction prompt of `_summarize_long_document`. -/
def final_prompt (all_summaries : String) : String :=
  "Based on the following section summaries of a document, create a comprehensive overall summary that covers all the main topics and key points:\n\n" ++
    all_summaries ++
    "\n\nPlease provide a well-structured summary that:\n1. Covers all major topics mentioned across sections\n2. Maintains logical flow and organization\n3. Highlights key concepts and important details\n4. Is comprehensive yet concise\n\nComprehensive Summary:"

/-- the final reduction request of `_summarize_long_document`. -/
def finalCall (all_summaries : String) : Call :=
  { model := model
    messages := [⟨"user", .str (final_prompt all_summaries)⟩]
    max_completion_tokens := 2048
    stream := false }

/-- `_summarize_long_document`: issue one request per chunk group (failures
replaced inline by placeholders), then one reduction request over the
labelled group summaries; if the reduction raises, fall back to
`f"Document Summary (Section-based):\n\n{all_summaries}"`. -/
def _summarize_long_document (o : Oracle) (chunks : List Document) :
    Except String String × List Call :=
  match o (longDocCalls o chunks).length (finalCall (allSummaries o chunks)) with
  | .ok content =>
      (.ok content, longDocCalls o chunks ++ [finalCall (allSummaries o chunks)])
  | .error _ =>
      (.ok ("Document Summary (Section-based):\n\n" ++ allSummaries o chunks),
        longDocCalls o chunks ++ [finalCall (allSummaries o chunks)])

/-- the loop condition in `_summarize_image_document` and
`_answer_question_with_images`: an image chunk whose content carries both
sentinel markers. -/
def isValidImageDoc (d : Document) : Bool :=
  isImageDoc d && (py_in "[IMAGE_DATA]" d.page_content &&
    py_in "[/IMAGE_DATA]" d.page_content)

/-- the vision request issued by `_summarize_image_document`. -/
def visionSummaryCall (image_data : String) : Call :=
  { model := vision_model
    messages := [⟨"user", .parts [
      .text "Please provide a comprehensive summary and analysis of this image. Describe what you see, any text content, important details, and overall context.",
      .image_url ("data:image/jpeg;base64," ++ image_data)]⟩]
    max_completion_tokens := 1024
    stream := false }

/-- `_summarize_image_document`: scan the chunks; at the first image chunk
containing both markers, issue one vision request over its extracted payload
and return its output (or raised exception); if no chunk qualifies, return
the fixed string without issuing any request. -/
def _summarize_image_document (o : Oracle) : List Document → Except String String × List Call
  | [] => (.ok "No valid image found for analysis.", [])
  | chunk :: rest =>
    if isValidImageDoc chunk then
      (o 0 (visionSummaryCall (image_data_of chunk.page_content)),
        [visionSummaryCall (image_data_of chunk.page_content)])
    else
      _summarize_image_document o rest

/-- `summarize_document`: route to the image path when any chunk is an image
unit; otherwise to the short path when the joined text has at most 8000
characters, and to the chunk-group path above that. -/
def summarize_document (o : Oracle) (chunks : List Document) :
    Except String String × List Call :=
  if chunks.any isImageDoc then _summarize_image_document o chunks
  else if (fullText chunks).length ≤ 8000 then
    _summarize_short_document o (fullText chunks)
  else
    _summarize_long_document o chunks

/-- the prompt built by `_answer_question_text_only`. -/
def qa_prompt (context question : String) : String :=
  "Based on the following context, please answer the question.\n\nContext:\n" ++
    context ++ "\n\nQuestion: " ++ question ++ "\n\nAnswer:"

/-- the single streaming request issued by `_answer_question_text_only`. -/
def textAnswerCall (question : String) (context_docs : List Document) : Call :=
  { model := model
    messages := [⟨"user", .str (qa_prompt
      (String.intercalate "\n" (context_docs.map (·.page_content))) question)⟩]
    max_completion_tokens := 2048
    stream := true }

/-- the content parts appended for one context document in
`_answer_question_with_images`: an image chunk contributes its decoded
payload as an image part when both markers occur (and nothing otherwise); a
non-image chunk contributes its content as an `Additional context:` text
part. -/
def imageQAPart (d : Document) : List ContentPart :=
  if isImageDoc d then
    if py_in "[IMAGE_DATA]" d.page_content && py_in "[/IMAGE_DATA]" d.page_content then
      [.image_url ("data:image/jpeg;base64," ++ image_data_of d.page_content)]
    else []
  else
    [.text ("Additional context: " ++ d.page_content)]

/-- the single streaming vision request issued by
`_answer_question_with_images`: one user message whose parts are the question
text followed by the parts contributed by each context document in order. -/
def imageAnswerCall (question : String) (context_docs : List Document) : Call :=
  { model := vision_model
    messages := [⟨"user", .parts
      (ContentPart.text ("Please answer this question based on the provided image(s): " ++ question)
        :: context_docs.flatMap imageQAPart)⟩]
    max_completion_tokens := 2048
    stream := true }

/-- the request issued by `answer_question`: the vision request when any
context chunk is an image unit, the text-only request otherwise. -/
def answer_question_request (question : String) (context_docs : List Document) : Call :=
  if context_docs.any isImageDoc then imageAnswerCall question context_docs
  else textAnswerCall question context_docs

/-- a file path as the character sequence Python string operations act on. -/
abbrev Path := List Char

/-- `file_path.lower()` (the extensions compared against are ASCII). -/
def lowerStr (s : Path) : Path := s.map Char.toLower

/-- `s.endswith(suffix)`. -/
def strEndsWith (s suffix : Path) : Bool := decide (suffix <:+ s)

/-- the `image_extensions` list of `_is_image_file`. -/
def image_extensions : List Path :=
  [".jpg".data, ".jpeg".data, ".png".data, ".gif".data, ".bmp".data,
    ".webp".data, ".tiff".data]

/-- `_is_image_file`: `any(file_path.lower().endswith(ext) for ext in
image_extensions)`. -/
def _is_image_file (file_path : Path) : Bool :=
  image_extensions.any (fun ext => strEndsWith (lowerStr file_path) ext)

/-- the RFC 4648 base64 alphabet, as used by Python `base64.b64encode`. -/
def b64Char (n : Nat) : Char :=
  "ABCDEFGHIJKLMNOPQRSTUVWXYZabcdefghijklmnopqrstuvwxyz0123456789+/".data.getD n 'A'

/-- standard base64 of a byte sequence (bytes as naturals below 256) with
`=` padding; models Python `base64.b64encode(...).decode("utf-8")`. -/
def base64Encode : List Nat → List Char
  | [] => []
  | [b1] => [b64Char (b1 / 4), b64Char (b1 % 4 * 16), '=', '=']
  | [b1, b2] => [b64Char (b1 / 4), b64Char (b1 % 4 * 16 + b2 / 16), b64Char (b2 % 16 * 4), '=']
  | b1 :: b2 :: b3 :: rest =>
      b64Char (b1 / 4) :: b64Char (b1 % 4 * 16 + b2 / 16) ::
        b64Char (b2 % 16 * 4 + b3 / 64) :: b64Char (b3 % 64) :: base64Encode rest

/-- `_load_image_document`: read the raw bytes, base64-encode them, and
return one image `Document` whose content wraps the encoding between the
`[IMAGE_DATA]`/`[/IMAGE_DATA]` markers; the unit is returned as the whole
list without passing through the splitter. -/
def _load_image_document (file_bytes : List Nat) (file_path : Path) : List Document :=
  [{ page_content :=
        "[IMAGE_DATA]" ++ String.mk (base64Encode file_bytes) ++ "[/IMAGE_DATA]"
     source := String.mk file_path
     mtype := some "image" }]

/-- `_load_docx_document`: the text assembled from paragraphs and tables is
external (the `docx` library), abstracted as `docxText`; the resulting single
text `Document` is passed through the splitter. -/
def _load_docx_document (split_documents : List Document → List Document)
    (docxText : Path → String) (file_path : Path) : List Document :=
  split_documents [{ page_content := docxText file_path, source := String.mk file_path }]

/-- `load_document`: extension dispatch of `DocumentProcessor.load_document`.
The PDF and plain-text loaders and the recursive character splitter are
external collaborators, abstracted as the function parameters; the image
branch returns its unit without splitting. -/
def load_document (split_documents : List Document → List Document)
    (pdfLoad : Path → List Document) (docxText : Path → String)
    (textLoad : Path → List Document)
    (file_bytes : List Nat) (file_path : Path) : List Document :=
  if strEndsWith file_path ".pdf".data then split_documents (pdfLoad file_path)
  else if strEndsWith file_path ".docx".data || strEndsWith file_path ".doc".data then
    _load_docx_document split_documents docxText file_path
  else if _is_image_file file_path then
    _load_image_document file_bytes file_path
  else
    split_documents (textLoad file_path)

/-- `load_from_upload` (and the identical `process_document` helper in
`app.py`): create the temporary file, run the loader inside `try`, and
delete the file in the `finally` block on both the success and the
exception path, then return or re-raise. The filesystem is the list of
existing paths; `loadDoc` is the parse step, which may raise. -/
def load_from_upload (loadDoc : Path → Except String (List Document))
    (fs : List Path) (tmp_file_path : Path) :
    Except String (List Document) × List Path :=
  let fs1 := tmp_file_path :: fs
  let result := loadDoc tmp_file_path
  (result, fs1.erase tmp_file_path)

/-- the streaming side of the backend: one request maps to an ordered list of
deltas, each either absent (`chunk.choices[0].delta.content` is `None`) or a
text fragment. -/
abbrev StreamOracle := Call → List (Option String)

/-- the fragments `answer_question` yields: every delta of the single request
it issues whose content is present and non-empty (Python truthiness of
`if chunk.choices[0].delta.content:`). -/
def answer_question_yields (so : StreamOracle) (question : String)
    (context_docs : List Document) : List String :=
  (so (answer_question_request question context_docs)).filterMap
    (fun d => match d with
      | some s => if s = "" then none else some s
      | none => none)

/-- the first chunk the `_summarize_image_document` loop acts on: the first
image chunk whose content contains both sentinel markers. -/
def firstValidImage (chunks : List Document) : Option Document :=
  chunks.find? isValidImageDoc

/-- the content parts the specification describes for the vision question
path: every image chunk contributes its decoded payload as an attached
image, and every text chunk contributes its content as supplementary textual
context. Stated from the spec's words, to be compared with `imageQAPart`. -/
def attachedPart (d : Document) : List ContentPart :=
  if isImageDoc d then
    [.image_url ("data:image/jpeg;base64," ++ image_data_of d.page_content)]
  else
    [.text ("Additional context: " ++ d.page_content)]

/-! concrete fixtures used by witnesses and counterexamples -/

/-- a text chunk of 8001 characters, putting a document strictly above the
short-document threshold. -/
def bigChunk : Document := { page_content := String.mk (List.replicate 8001 'a') }

/-- a text chunk of exactly 8000 characters: a document exactly at the
short-document threshold. -/
def atThresholdChunk : Document := { page_content := String.mk (List.replicate 8000 'a') }

/-- a backend that answers every request successfully. -/
def okOracle : Oracle := fun _ _ => .ok "model output"

/-- a backend whose first request succeeds and whose later requests raise. -/
def failFinalOracle : Oracle := fun k _ => if k = 0 then .ok "S1" else .error "reduction failed"

/-- a backend whose first request raises and whose later requests succeed. -/
def failFirstOracle : Oracle := fun k _ => if k = 0 then .error "E" else .ok "ok"

/-- six one-character text chunks: two chunk groups on the long path. -/
def sixChunks : List Document := List.replicate 6 { page_content := "a" }

/-- an image chunk whose content carries no sentinel markers. -/
def noMarkerImage : Document := { page_content := "x", mtype := some "image" }

/-- an image chunk whose content carries a marker-wrapped base64 payload. -/
def markerImage : Document :=
  { page_content := "[IMAGE_DATA]QUJD[/IMAGE_DATA]", mtype := some "image" }

/-- a plain text chunk used alongside image chunks. -/
def textChunk : Document := { page_content := "text chunk" }

/-- a parse step that raises, exercising the exception exit path. -/
def failingParse : Path → Except String (List Document) := fun _ => .error "parse error"

/-- an identity splitter instantiation for dispatch witnesses. -/
def idSplitter : List Document → List Document := fun l => l

/-- a loader instantiation returning no units, for dispatch witnesses. -/
def emptyLoad : Path → List Document := fun _ => []

/-- a docx text extraction instantiation, for dispatch witnesses. -/
def emptyDocxText : Path → String := fun _ => ""

/-! helper lemmas about the embedded operations -/

theorem groupStartsAux_length (g : Nat) : ∀ i, (groupStartsAux g i).length = g := by
  induction g with
  | zero => intro i; rfl
  | succ g ih => intro i; simp [groupStartsAux, ih]

theorem groupStarts_length (n : Nat) :
    (groupStarts n).length = (n + chunk_size - 1) / chunk_size :=
  groupStartsAux_length _ 0

theorem groupStartsAux_getElem? (g : Nat) :
    ∀ i j, j < g → (groupStartsAux g i)[j]? = some (i + chunk_size * j) := by
  induction g with
  | zero => intro i j h; omega
  | succ g ih =>
    intro i j h
    cases j with
    | zero => simp [groupStartsAux]
    | succ j =>
      have hj : j < g := by omega
      have := ih (i + chunk_size) j hj
      simp only [groupStartsAux, List.getElem?_cons_succ, this]
      have harith : i + chunk_size + chunk_size * j = i + chunk_size * (j + 1) := by
        show i + 5 + 5 * j = i + 5 * (j + 1)
        omega
      rw [harith]

theorem groupStarts_getElem? (n j : Nat) (h : j < (n + chunk_size - 1) / chunk_size) :
    (groupStarts n)[j]? = some (chunk_size * j) := by
  have := groupStartsAux_getElem? ((n + chunk_size - 1) / chunk_size) 0 j h
  simpa [groupStarts] using this

theorem groupLoop_fst_length (o : Oracle) (chunks : List Document) (idxs : List Nat) :
    ∀ k, (groupLoop o chunks idxs k).1.length = idxs.length := by
  induction idxs with
  | nil => intro k; rfl
  | cons i rest ih => intro k; simp [groupLoop, ih]

theorem groupLoop_snd (o : Oracle) (chunks : List Document) (idxs : List Nat) :
    ∀ k, (groupLoop o chunks idxs k).2 = idxs.map (groupCall chunks) := by
  induction idxs with
  | nil => intro k; rfl
  | cons i rest ih => intro k; simp [groupLoop, ih]

theorem groupLoop_fst_getElem? (o : Oracle) (chunks : List Document) (idxs : List Nat) :
    ∀ k j i, idxs[j]? = some i →
      (groupLoop o chunks idxs k).1[j]? =
        some (sectionSummary i (o (k + j) (groupCall chunks i))) := by
  induction idxs with
  | nil => intro k j i h; simp at h
  | cons a rest ih =>
    intro k j i h
    cases j with
    | zero =>
      simp only [List.getElem?_cons_zero, Option.some.injEq] at h
      subst h
      simp [groupLoop]
    | succ j =>
      simp only [List.getElem?_cons_succ] at h
      have := ih (k + 1) j i h
      have harith : k + 1 + j = k + (j + 1) := by omega
      rw [harith] at this
      simpa [groupLoop] using this

theorem longDocCalls_eq (o : Oracle) (chunks : List Document) :
    longDocCalls o chunks = (groupStarts chunks.length).map (groupCall chunks) :=
  groupLoop_snd o chunks _ 0

theorem longDocCalls_length (o : Oracle) (chunks : List Document) :
    (longDocCalls o chunks).length = (chunks.length + chunk_size - 1) / chunk_size := by
  rw [longDocCalls_eq, List.length_map, groupStarts_length]

theorem longDocSummaries_length (o : Oracle) (chunks : List Document) :
    (longDocSummaries o chunks).length = (chunks.length + chunk_size - 1) / chunk_size := by
  rw [longDocSummaries, groupLoop_fst_length, groupStarts_length]

theorem longDocSummaries_getElem? (o : Oracle) (chunks : List Document) (j : Nat)
    (h : j < (chunks.length + chunk_size - 1) / chunk_size) :
    (longDocSummaries o chunks)[j]? =
      some (sectionSummary (chunk_size * j) (o j (groupCall chunks (chunk_size * j)))) := by
  have := groupLoop_fst_getElem? o chunks (groupStarts chunks.length) 0 j
    (chunk_size * j) (groupStarts_getElem? chunks.length j h)
  simpa [longDocSummaries] using this

theorem sectionSummary_label (j : Nat) (r : Except String String) :
    ∃ s, sectionSummary (chunk_size * j) r = "Section " ++ toString (j + 1) ++ ": " ++ s := by
  have harith : chunk_size * j / chunk_size + 1 = j + 1 := by
    show 5 * j / 5 + 1 = j + 1
    omega
  cases r with
  | ok content => exact ⟨content, by rw [sectionSummary, harith]⟩
  | error e =>
      exact ⟨"[Error summarizing this section: " ++ e ++ "]", by rw [sectionSummary, harith]⟩

theorem summarize_document_long (o : Oracle) (chunks : List Document)
    (h1 : chunks.any isImageDoc = false) (h2 : 8000 < (fullText chunks).length) :
    summarize_document o chunks = _summarize_long_document o chunks := by
  unfold summarize_document
  rw [h1]
  simp [Nat.not_le.mpr h2]

theorem _summarize_long_document_snd (o : Oracle) (chunks : List Document) :
    (_summarize_long_document o chunks).2 =
      longDocCalls o chunks ++ [finalCall (allSummaries o chunks)] := by
  unfold _summarize_long_document
  cases o (longDocCalls o chunks).length (finalCall (allSummaries o chunks)) <;> rfl

theorem _summarize_long_document_ok (o : Oracle) (chunks : List Document) :
    ∃ s, (_summarize_long_document o chunks).1 = .ok s := by
  unfold _summarize_long_document
  cases o (longDocCalls o chunks).length (finalCall (allSummaries o chunks)) <;>
    exact ⟨_, rfl⟩

theorem strEndsWith_iff {s suffix : Path} : strEndsWith s suffix = true ↔ suffix <:+ s := by
  simp [strEndsWith]

theorem lowerStr_suffix {s p : Path} (h : s <:+ p) : lowerStr s <:+ lowerStr p :=
  h.map Char.toLower

theorem suffix_of_suffix_length_le {p a b : Path} (ha : a <:+ p) (hb : b <:+ p)
    (h : a.length ≤ b.length) : a <:+ b := by
  rw [← List.reverse_prefix] at ha hb ⊢
  exact List.prefix_of_prefix_length_le ha hb (by simpa using h)

theorem suffix_conflict {p a b : Path} (ha : a <:+ p) (hb : b <:+ p)
    (h1 : ¬ a <:+ b) (h2 : ¬ b <:+ a) : False := by
  rcases Nat.le_total a.length b.length with h | h
  · exact h1 (suffix_of_suffix_length_le ha hb h)
  · exact h2 (suffix_of_suffix_length_le hb ha h)

theorem not_endsWith_of_lower {p ext t : Path} (hsuf : ext <:+ lowerStr p)
    (hlt : lowerStr t = t) (h1 : ¬ ext <:+ t) (h2 : ¬ t <:+ ext) :
    strEndsWith p t = false := by
  rw [Bool.eq_false_iff]
  intro hcon
  have ht : t <:+ lowerStr p := hlt ▸ lowerStr_suffix (strEndsWith_iff.1 hcon)
  exact suffix_conflict hsuf ht h1 h2

theorem not_image_file {p X : Path} (hX : X <:+ lowerStr p)
    (hc : image_extensions.all
      (fun ext => !decide (ext <:+ X) && !decide (X <:+ ext)) = true) :
    _is_image_file p = false := by
  rw [Bool.eq_false_iff]
  intro hcon
  obtain ⟨ext, hmem, hsuf⟩ := List.any_eq_true.1 hcon
  have h := List.all_eq_true.1 hc ext hmem
  simp only [Bool.and_eq_true, Bool.not_eq_true', decide_eq_false_iff_not] at h
  exact suffix_conflict (strEndsWith_iff.1 hsuf) hX h.1 h.2

theorem image_not_doc_ext {p : Path} (h : _is_image_file p = true) :
    strEndsWith p ".pdf".data = false ∧ strEndsWith p ".docx".data = false ∧
      strEndsWith p ".doc".data = false := by
  obtain ⟨ext, hmem, hsuf⟩ := List.any_eq_true.1 h
  replace hsuf := strEndsWith_iff.1 hsuf
  simp only [image_extensions, List.mem_cons, List.not_mem_nil, or_false] at hmem
  rcases hmem with rfl | rfl | rfl | rfl | rfl | rfl | rfl <;>
    exact ⟨not_endsWith_of_lower hsuf (by decide) (by decide) (by decide),
      not_endsWith_of_lower hsuf (by decide) (by decide) (by decide),
      not_endsWith_of_lower hsuf (by decide) (by decide) (by decide)⟩

theorem _summarize_image_document_none (o : Oracle) (chunks : List Document)
    (h : chunks.any isValidImageDoc = false) :
    _summarize_image_document o chunks = (.ok "No valid image found for analysis.", []) := by
  induction chunks with
  | nil => rfl
  | cons c rest ih =>
    rw [List.any_cons, Bool.or_eq_false_iff] at h
    rw [_summarize_image_document, if_neg (by simp [h.1])]
    exact ih h.2

theorem _summarize_image_document_find (o : Oracle) (chunks : List Document) (d : Document)
    (h : chunks.find? isValidImageDoc = some d) :
    _summarize_image_document o chunks =
      (o 0 (visionSummaryCall (image_data_of d.page_content)),
        [visionSummaryCall (image_data_of d.page_content)]) := by
  induction chunks with
  | nil => simp [List.find?] at h
  | cons c rest ih =>
    by_cases hc : isValidImageDoc c = true
    · rw [List.find?_cons_of_pos _ hc, Option.some.injEq] at h
      subst h
      rw [_summarize_image_document, if_pos hc]
    · rw [List.find?_cons_of_neg _ hc] at h
      rw [_summarize_image_document, if_neg hc]
      exact ih h

theorem bigChunk_over_threshold : 8000 < (fullText [bigChunk]).length := by
  show 8000 < (List.replicate 8001 'a').length
  rw [List.length_replicate]
  omega

theorem atThresholdChunk_length : (fullText [atThresholdChunk]).length = 8000 := by
  show (List.replicate 8000 'a').length = 8000
  rw [List.length_replicate]

/-! claim theorems -/

/-- C2: for every list of chunks with no image chunk whose joined content has
length at most 8000 characters, `summarize_document` issues exactly one
summarization request, over the full text, and returns that request's output
directly, unmodified. -/
theorem C2_short_document_single_call (o : Oracle) (chunks : List Document)
    (h1 : chunks.any isImageDoc = false) (h2 : (fullText chunks).length ≤ 8000) :
    summarize_document o chunks =
      (o 0 (shortCall (fullText chunks)), [shortCall (fullText chunks)]) := by
  unfold summarize_document
  rw [h1]
  simp [h2, _summarize_short_document]

theorem C2_witness :
    ([{ page_content := "hello" }] : List Document).any isImageDoc = false ∧
    (fullText [{ page_content := "hello" }]).length ≤ 8000 ∧
    summarize_document okOracle [{ page_content := "hello" }] =
      (okOracle 0 (shortCall (fullText [{ page_content := "hello" }])),
        [shortCall (fullText [{ page_content := "hello" }])]) :=
  ⟨rfl, by decide, C2_short_document_single_call okOracle _ rfl (by decide)⟩

/-- C3: in the long-document path, a failing group request is caught and
replaced by the inline placeholder naming that group's error, the operation
still returns normally, and every group is still processed (the summaries
list keeps one labelled entry per group and the reduction request is still
issued after all group requests). -/
theorem C3_group_failure_isolated (o : Oracle) (chunks : List Document) (j : Nat) (e : String)
    (hj : j < (chunks.length + chunk_size - 1) / chunk_size)
    (he : o j (groupCall chunks (chunk_size * j)) = .error e) :
    (longDocSummaries o chunks)[j]? =
      some ("Section " ++ toString (j + 1) ++ ": " ++
        ("[Error summarizing this section: " ++ e ++ "]")) ∧
    (longDocSummaries o chunks).length = (chunks.length + chunk_size - 1) / chunk_size ∧
    (∃ s, (_summarize_long_document o chunks).1 = Except.ok s) ∧
    (_summarize_long_document o chunks).2.length =
      (chunks.length + chunk_size - 1) / chunk_size + 1 := by
  refine ⟨?_, longDocSummaries_length o chunks, _summarize_long_document_ok o chunks, ?_⟩
  · rw [longDocSummaries_getElem? o chunks j hj, he]
    have harith : chunk_size * j / chunk_size + 1 = j + 1 := by
      show 5 * j / 5 + 1 = j + 1
      omega
    simp [sectionSummary, harith]
  · rw [_summarize_long_document_snd, List.length_append, longDocCalls_length]
    rfl

theorem C3_witness :
    0 < (sixChunks.length + chunk_size - 1) / chunk_size ∧
    failFirstOracle 0 (groupCall sixChunks (chunk_size * 0)) = .error "E" ∧
    ((longDocSummaries failFirstOracle sixChunks)[0]? =
      some ("Section " ++ toString (0 + 1) ++ ": " ++
        ("[Error summarizing this section: " ++ "E" ++ "]")) ∧
    (longDocSummaries failFirstOracle sixChunks).length =
      (sixChunks.length + chunk_size - 1) / chunk_size ∧
    (∃ s, (_summarize_long_document failFirstOracle sixChunks).1 = Except.ok s) ∧
    (_summarize_long_document failFirstOracle sixChunks).2.length =
      (sixChunks.length + chunk_size - 1) / chunk_size + 1) :=
  ⟨by decide, rfl, C3_group_failure_isolated failFirstOracle sixChunks 0 "E" (by decide) rfl⟩

/-- C8: the temporary file created before parsing is deleted on every exit
path: whatever the parse step does (return chunks or raise), after the
operation the temporary path is no longer among the existing files, and the
parse outcome (result or re-raised exception) is passed through. -/
theorem C8_temp_file_deleted (loadDoc : Path → Except String (List Document))
    (fs : List Path) (tmp_file_path : Path) (h : tmp_file_path ∉ fs) :
    tmp_file_path ∉ (load_from_upload loadDoc fs tmp_file_path).2 ∧
    (load_from_upload loadDoc fs tmp_file_path).1 = loadDoc tmp_file_path := by
  constructor
  · show tmp_file_path ∉ (tmp_file_path :: fs).erase tmp_file_path
    rw [List.erase_cons_head]
    exact h
  · rfl

theorem C8_witness :
    ("doc.pdf".data ∉ ([] : List Path)) ∧
    ("doc.pdf".data ∉ (load_from_upload failingParse [] "doc.pdf".data).2 ∧
      (load_from_upload failingParse [] "doc.pdf".data).1 = failingParse "doc.pdf".data) :=
  ⟨by decide, C8_temp_file_deleted failingParse [] "doc.pdf".data (by decide)⟩

/-- C10: when some chunk has image metadata but no image chunk's content
contains both sentinel markers, `summarize_document` issues no request at
all and returns the literal fallback string. -/
theorem C10_no_valid_image_no_call (o : Oracle) (chunks : List Document)
    (h1 : chunks.any isImageDoc = true) (h2 : chunks.any isValidImageDoc = false) :
    summarize_document o chunks = (.ok "No valid image found for analysis.", []) := by
  unfold summarize_document
  rw [h1]
  simp only [if_pos]
  exact _summarize_image_document_none o chunks h2

theorem C10_witness :
    [noMarkerImage].any isImageDoc = true ∧
    [noMarkerImage].any isValidImageDoc = false ∧
    summarize_document okOracle [noMarkerImage] =
      (.ok "No valid image found for analysis.", []) :=
  ⟨by decide, by decide, C10_no_valid_image_no_call okOracle [noMarkerImage] (by decide) (by decide)⟩

/-- C1 (amended): for every text-only chunk list whose joined content is
strictly above the 8000-character threshold (the long-document path), the
requests issued are exactly one group-summarization request per chunk group
(`⌈chunk_count / 5⌉` of them, in group order) followed by one reduction
request, and the reduction request's input is built from exactly that many
summaries, the `j`-th labelled `Section j+1`, in ascending index order,
whatever each group request returned. -/
theorem C1_long_path_group_calls (o : Oracle) (chunks : List Document)
    (h1 : chunks.any isImageDoc = false) (h2 : 8000 < (fullText chunks).length) :
    (summarize_document o chunks).2 =
      (groupStarts chunks.length).map (groupCall chunks) ++
        [finalCall (allSummaries o chunks)] ∧
    ((groupStarts chunks.length).map (groupCall chunks)).length =
      (chunks.length + chunk_size - 1) / chunk_size ∧
    allSummaries o chunks = String.intercalate "\n\n" (longDocSummaries o chunks) ∧
    (longDocSummaries o chunks).length = (chunks.length + chunk_size - 1) / chunk_size ∧
    ∀ j, j < (chunks.length + chunk_size - 1) / chunk_size →
      ∃ s, (longDocSummaries o chunks)[j]? =
        some ("Section " ++ toString (j + 1) ++ ": " ++ s) := by
  refine ⟨?_, ?_, rfl, longDocSummaries_length o chunks, ?_⟩
  · rw [summarize_document_long o chunks h1 h2, _summarize_long_document_snd,
      longDocCalls_eq]
  · rw [List.length_map, groupStarts_length]
  · intro j hj
    obtain ⟨s, hs⟩ := sectionSummary_label j (o j (groupCall chunks (chunk_size * j)))
    exact ⟨s, by rw [longDocSummaries_getElem? o chunks j hj, hs]⟩

/-- C1 counterexample: a document exactly at the 8000-character threshold
(which the claim's gloss places on the long-document path) is routed to the
short path, so the only request issued is the single short-document request:
no group-summarization request and no reduction request exist at all. -/
theorem C1_counterexample :
    (fullText [atThresholdChunk]).length = 8000 ∧
    (summarize_document okOracle [atThresholdChunk]).2 =
      [shortCall (fullText [atThresholdChunk])] := by
  refine ⟨atThresholdChunk_length, ?_⟩
  have h2 : (fullText [atThresholdChunk]).length ≤ 8000 :=
    Nat.le_of_eq atThresholdChunk_length
  unfold summarize_document
  rw [show ([atThresholdChunk].any isImageDoc) = false from rfl]
  simp [h2, _summarize_short_document]

theorem C1_witness :
    ([bigChunk].any isImageDoc = false) ∧ (8000 < (fullText [bigChunk]).length) ∧
    ((summarize_document okOracle [bigChunk]).2 =
      (groupStarts ([bigChunk] : List Document).length).map (groupCall [bigChunk]) ++
        [finalCall (allSummaries okOracle [bigChunk])] ∧
    ((groupStarts ([bigChunk] : List Document).length).map (groupCall [bigChunk])).length =
      (([bigChunk] : List Document).length + chunk_size - 1) / chunk_size ∧
    allSummaries okOracle [bigChunk] =
      String.intercalate "\n\n" (longDocSummaries okOracle [bigChunk]) ∧
    (longDocSummaries okOracle [bigChunk]).length =
      (([bigChunk] : List Document).length + chunk_size - 1) / chunk_size ∧
    ∀ j, j < (([bigChunk] : List Document).length + chunk_size - 1) / chunk_size →
      ∃ s, (longDocSummaries okOracle [bigChunk])[j]? =
        some ("Section " ++ toString (j + 1) ++ ": " ++ s)) :=
  ⟨rfl, bigChunk_over_threshold,
    C1_long_path_group_calls okOracle [bigChunk] rfl bigChunk_over_threshold⟩

theorem header_prepend_ne (s : String) :
    "Document Summary (Section-based):\n\n" ++ s ≠ s := by
  intro hEq
  have hlen := congrArg String.length hEq
  rw [String.length_append] at hlen
  have hpos : 0 < ("Document Summary (Section-based):\n\n").length := by decide
  omega

/-- C4 (amended): on the long-document path, when the final reduction request
raises, `summarize_document` returns normally with the concatenated labelled
group summaries prefixed by the fixed header
`"Document Summary (Section-based):"` and a blank line, rather than raising. -/
theorem C4_reduction_failure_fallback (o : Oracle) (chunks : List Document) (e : String)
    (h1 : chunks.any isImageDoc = false) (h2 : 8000 < (fullText chunks).length)
    (hfail : o (longDocCalls o chunks).length (finalCall (allSummaries o chunks)) =
      .error e) :
    (summarize_document o chunks).1 =
      .ok ("Document Summary (Section-based):\n\n" ++ allSummaries o chunks) ∧
    (summarize_document o chunks).2 =
      longDocCalls o chunks ++ [finalCall (allSummaries o chunks)] := by
  rw [summarize_document_long o chunks h1 h2]
  unfold _summarize_long_document
  rw [hfail]
  exact ⟨rfl, rfl⟩

/-- C4 counterexample: with one group summary `"S1"` and a failing reduction,
the returned string is the labelled summaries with the prefixed header, which
differs from the reduction request's input sections text itself, so the
result is not that text verbatim. -/
theorem C4_counterexample :
    (summarize_document failFinalOracle [bigChunk]).1 =
      .ok ("Document Summary (Section-based):\n\n" ++
        allSummaries failFinalOracle [bigChunk]) ∧
    (summarize_document failFinalOracle [bigChunk]).1 ≠
      .ok (allSummaries failFinalOracle [bigChunk]) := by
  have hfail : failFinalOracle (longDocCalls failFinalOracle [bigChunk]).length
      (finalCall (allSummaries failFinalOracle [bigChunk])) = .error "reduction failed" := by
    rw [longDocCalls_length]
    rfl
  have hmain : (summarize_document failFinalOracle [bigChunk]).1 =
      .ok ("Document Summary (Section-based):\n\n" ++
        allSummaries failFinalOracle [bigChunk]) := by
    rw [summarize_document_long failFinalOracle [bigChunk] rfl bigChunk_over_threshold]
    unfold _summarize_long_document
    rw [hfail]
  refine ⟨hmain, ?_⟩
  rw [hmain]
  intro hEq
  exact header_prepend_ne _ (Except.ok.inj hEq)

theorem C4_witness :
    ([bigChunk].any isImageDoc = false) ∧ (8000 < (fullText [bigChunk]).length) ∧
    (failFinalOracle (longDocCalls failFinalOracle [bigChunk]).length
      (finalCall (allSummaries failFinalOracle [bigChunk])) = .error "reduction failed") ∧
    ((summarize_document failFinalOracle [bigChunk]).1 =
      .ok ("Document Summary (Section-based):\n\n" ++
        allSummaries failFinalOracle [bigChunk]) ∧
    (summarize_document failFinalOracle [bigChunk]).2 =
      longDocCalls failFinalOracle [bigChunk] ++
        [finalCall (allSummaries failFinalOracle [bigChunk])]) := by
  have hfail : failFinalOracle (longDocCalls failFinalOracle [bigChunk]).length
      (finalCall (allSummaries failFinalOracle [bigChunk])) = .error "reduction failed" := by
    rw [longDocCalls_length]
    rfl
  exact ⟨rfl, bigChunk_over_threshold, hfail,
    C4_reduction_failure_fallback failFinalOracle [bigChunk] "reduction failed" rfl
      bigChunk_over_threshold hfail⟩

/-- C5 (amended): for every chunk list having an image chunk whose content
contains both sentinel markers, `summarize_document` delegates to a single
vision request over the first such chunk's extracted payload and returns that
request's outcome; text chunks are ignored and the chunk-group logic is
bypassed. -/
theorem C5_first_valid_image (o : Oracle) (chunks : List Document) (d : Document)
    (h : firstValidImage chunks = some d) :
    chunks.any isImageDoc = true ∧
    summarize_document o chunks =
      (o 0 (visionSummaryCall (image_data_of d.page_content)),
        [visionSummaryCall (image_data_of d.page_content)]) := by
  have hmem := List.mem_of_find?_eq_some h
  have hp := List.find?_some h
  have himg : isImageDoc d = true := by
    unfold isValidImageDoc at hp
    rw [Bool.and_eq_true] at hp
    exact hp.1
  have hany : chunks.any isImageDoc = true := List.any_eq_true.mpr ⟨d, hmem, himg⟩
  refine ⟨hany, ?_⟩
  unfold summarize_document
  rw [hany]
  simp only [if_pos]
  exact _summarize_image_document_find o chunks d h

/-- C5 counterexample: a document whose only chunk is an image chunk without
sentinel markers contains an image chunk, yet `summarize_document` issues no
vision request at all and returns the fixed fallback string instead of a
request's output. -/
theorem C5_counterexample :
    [noMarkerImage].any isImageDoc = true ∧
    (summarize_document okOracle [noMarkerImage]).2 = [] ∧
    (summarize_document okOracle [noMarkerImage]).1 =
      .ok "No valid image found for analysis." := by
  refine ⟨by decide, ?_, ?_⟩ <;> rfl

theorem C5_witness :
    firstValidImage [textChunk, markerImage] = some markerImage ∧
    ([textChunk, markerImage].any isImageDoc = true ∧
    summarize_document okOracle [textChunk, markerImage] =
      (okOracle 0 (visionSummaryCall (image_data_of markerImage.page_content)),
        [visionSummaryCall (image_data_of markerImage.page_content)])) :=
  ⟨by decide, C5_first_valid_image okOracle [textChunk, markerImage] markerImage (by decide)⟩

/-- C6: for every file whose extension matches an image extension
case-insensitively, extraction yields exactly one image unit whose content is
the base64 encoding of the raw bytes wrapped between the sentinel markers,
and the unit bypasses the splitter entirely (the result does not depend on
the splitter or on any text loader). -/
theorem C6_image_unit_unsplit (split_documents : List Document → List Document)
    (pdfLoad : Path → List Document) (docxText : Path → String)
    (textLoad : Path → List Document) (file_bytes : List Nat) (file_path : Path)
    (h : _is_image_file file_path = true) :
    load_document split_documents pdfLoad docxText textLoad file_bytes file_path =
      [{ page_content :=
            "[IMAGE_DATA]" ++ String.mk (base64Encode file_bytes) ++ "[/IMAGE_DATA]",
         source := String.mk file_path,
         mtype := some "image" }] := by
  obtain ⟨hpdf, hdocx, hdoc⟩ := image_not_doc_ext h
  unfold load_document
  rw [hpdf, hdocx, hdoc, h]
  simp [_load_image_document]

theorem C6_witness :
    _is_image_file "photo.PNG".data = true ∧
    load_document idSplitter emptyLoad emptyDocxText emptyLoad [77, 97] "photo.PNG".data =
      [{ page_content :=
            "[IMAGE_DATA]" ++ String.mk (base64Encode [77, 97]) ++ "[/IMAGE_DATA]",
         source := String.mk "photo.PNG".data,
         mtype := some "image" }] :=
  ⟨by decide, C6_image_unit_unsplit idSplitter emptyLoad emptyDocxText emptyLoad
    [77, 97] "photo.PNG".data (by decide)⟩

theorem flatMap_imageQAPart_eq (docs : List Document)
    (h : ∀ d ∈ docs, isImageDoc d = true →
      (py_in "[IMAGE_DATA]" d.page_content && py_in "[/IMAGE_DATA]" d.page_content) = true) :
    docs.flatMap imageQAPart = docs.flatMap attachedPart := by
  induction docs with
  | nil => rfl
  | cons d rest ih =>
    have hhead : imageQAPart d = attachedPart d := by
      by_cases hd : isImageDoc d = true
      · have hm := h d (List.mem_cons_self d rest) hd
        unfold imageQAPart attachedPart
        simp [hd, hm]
      · have hd2 : isImageDoc d = false := Bool.eq_false_iff.mpr hd
        unfold imageQAPart attachedPart
        simp [hd2]
    rw [List.flatMap_cons, List.flatMap_cons, hhead,
      ih (fun x hx hix => h x (List.mem_cons_of_mem d hx) hix)]

/-- C7: for every `answer_question` request whose context includes an image
chunk (all image chunks carrying their marker-wrapped payload, as extraction
produces them), the request is the vision-model one — a single user message
holding the question as text, each image chunk's decoded payload as an
attached image, and each text chunk's content as supplementary textual
context, in context order — and it is streamed. -/
theorem C7_vision_question_routing (question : String) (context_docs : List Document)
    (h1 : context_docs.any isImageDoc = true)
    (h2 : context_docs.all (fun d => !isImageDoc d ||
      (py_in "[IMAGE_DATA]" d.page_content && py_in "[/IMAGE_DATA]" d.page_content)) = true) :
    answer_question_request question context_docs =
      { model := vision_model
        messages := [⟨"user", .parts
          (ContentPart.text
              ("Please answer this question based on the provided image(s): " ++ question)
            :: context_docs.flatMap attachedPart)⟩]
        max_completion_tokens := 2048
        stream := true } := by
  have hall : ∀ d ∈ context_docs, isImageDoc d = true →
      (py_in "[IMAGE_DATA]" d.page_content && py_in "[/IMAGE_DATA]" d.page_content) = true := by
    intro d hd himg
    have := List.all_eq_true.1 h2 d hd
    simpa [himg] using this
  unfold answer_question_request
  rw [h1]
  simp only [if_pos]
  unfold imageAnswerCall
  rw [flatMap_imageQAPart_eq context_docs hall]

theorem C7_witness :
    [markerImage, textChunk].any isImageDoc = true ∧
    [markerImage, textChunk].all (fun d => !isImageDoc d ||
      (py_in "[IMAGE_DATA]" d.page_content && py_in "[/IMAGE_DATA]" d.page_content)) = true ∧
    answer_question_request "q" [markerImage, textChunk] =
      { model := vision_model
        messages := [⟨"user", .parts
          (ContentPart.text
              ("Please answer this question based on the provided image(s): " ++ "q")
            :: ([markerImage, textChunk] : List Document).flatMap attachedPart)⟩]
        max_completion_tokens := 2048
        stream := true } :=
  ⟨by decide, by decide,
    C7_vision_question_routing "q" [markerImage, textChunk] (by decide) (by decide)⟩

/-- C9: a path ending in an uppercase or mixed-case variant of `.pdf`,
`.docx` or `.doc` (its lowercase form ends with the extension but the path
itself does not) is not dispatched to the PDF or Word loader: it falls
through to the plain-text loader branch. -/
theorem C9_mixed_case_falls_to_text (split_documents : List Document → List Document)
    (pdfLoad : Path → List Document) (docxText : Path → String)
    (textLoad : Path → List Document) (file_bytes : List Nat) (p : Path)
    (h : (strEndsWith (lowerStr p) ".pdf".data = true ∧ strEndsWith p ".pdf".data = false) ∨
      (strEndsWith (lowerStr p) ".docx".data = true ∧ strEndsWith p ".docx".data = false) ∨
      (strEndsWith (lowerStr p) ".doc".data = true ∧ strEndsWith p ".doc".data = false)) :
    load_document split_documents pdfLoad docxText textLoad file_bytes p =
      split_documents (textLoad p) := by
  have guards : strEndsWith p ".pdf".data = false ∧ strEndsWith p ".docx".data = false ∧
      strEndsWith p ".doc".data = false ∧ _is_image_file p = false := by
    rcases h with ⟨hlow, hno⟩ | ⟨hlow, hno⟩ | ⟨hlow, hno⟩ <;>
      replace hlow := strEndsWith_iff.1 hlow
    · exact ⟨hno,
        not_endsWith_of_lower hlow (by decide) (by decide) (by decide),
        not_endsWith_of_lower hlow (by decide) (by decide) (by decide),
        not_image_file hlow (by decide)⟩
    · exact ⟨not_endsWith_of_lower hlow (by decide) (by decide) (by decide), hno,
        not_endsWith_of_lower hlow (by decide) (by decide) (by decide),
        not_image_file hlow (by decide)⟩
    · exact ⟨not_endsWith_of_lower hlow (by decide) (by decide) (by decide),
        not_endsWith_of_lower hlow (by decide) (by decide) (by decide), hno,
        not_image_file hlow (by decide)⟩
  obtain ⟨hpdf, hdocx, hdoc, himg⟩ := guards
  unfold load_document
  rw [hpdf, hdocx, hdoc, himg]
  simp

theorem C9_witness :
    ((strEndsWith (lowerStr "report.PDF".data) ".pdf".data = true ∧
      strEndsWith "report.PDF".data ".pdf".data = false) ∨
      (strEndsWith (lowerStr "report.PDF".data) ".docx".data = true ∧
        strEndsWith "report.PDF".data ".docx".data = false) ∨
      (strEndsWith (lowerStr "report.PDF".data) ".doc".data = true ∧
        strEndsWith "report.PDF".data ".doc".data = false)) ∧
    load_document idSplitter emptyLoad emptyDocxText emptyLoad [1] "report.PDF".data =
      idSplitter (emptyLoad "report.PDF".data) :=
  ⟨Or.inl ⟨by decide, by decide⟩,
    C9_mixed_case_falls_to_text idSplitter emptyLoad emptyDocxText emptyLoad [1]
      "report.PDF".data (Or.inl ⟨by decide, by decide⟩)⟩

end Docify
